import Mathlib

/-!
Verification of the URL-shortener mapping store (package `storage`), the
batch fan-out/fan-in pipelines (package `handlers`), and the short-code
generator, as a shallow embedding of the Go source.

Conventions of the embedding:
* the package-level globals (`URLStore`, `DB`, `ExistingShortURL`) become
  fields of an explicit `StorageState`; the `DB != nil` / `FileStoragePath != ""`
  branching in `storage.go` becomes the `config` field;
* the relational table `short_urls` becomes a list of `Row` in insertion
  order; its `UNIQUE` constraints and the `ON CONFLICT (original_url)
  DO UPDATE SET short_url = short_urls.short_url` clause are modelled in
  `dbInsert`;
* the Go map `URLStore` becomes an association list with in-place update
  (`mapUpdate`), matching Go map assignment semantics;
* fallible SQL statements are modelled as reliable (no connectivity
  faults); calling a method on the nil `DB` handle is modelled as the
  `Except.error` branch (`StoreFault.nilDB`), since `DB.Exec` on a nil
  `*sql.DB` panics.
-/

namespace UrlShortener

/-- Mirror of `models.URLData`. -/
structure URLData where
  uuid : String
  shortURL : String
  originalURL : String
  deletedFlag : Bool
  userUUID : String
  correlationID : String
deriving DecidableEq, Repr

/-- One row of the relational table `short_urls`
(`short_url`, `original_url`, `user_id`, `is_deleted`). -/
structure Row where
  shortURL : String
  originalURL : String
  userID : String
  isDeleted : Bool
deriving DecidableEq, Repr

/-- Which backing strategy `InitializeStorage` selected: `database` when
`config.DatabaseDSN != ""` (so the global `DB` is non-nil), `fileStore` when
only `config.FileStoragePath != ""`, `memory` otherwise. -/
inductive StoreConfig
  | database
  | fileStore
  | memory
deriving DecidableEq, Repr

/-- The package-level mutable state of `storage.go`: the relational table
(when configured), the in-memory map `URLStore`, the append-only file log,
and the shared global `ExistingShortURL`. -/
structure StorageState where
  config : StoreConfig
  dbRows : List Row
  urlStore : List (String × String)
  fileLog : List URLData
  existingShortURL : String
deriving DecidableEq, Repr

/-- Go map assignment `m[k] = v`: replace the binding if the key exists,
otherwise add it. -/
def mapUpdate : List (String × String) → String → String → List (String × String)
  | [], k, v => [(k, v)]
  | (k₀, v₀) :: rest, k, v =>
    if k₀ == k then (k, v) :: rest else (k₀, v₀) :: mapUpdate rest k v

/-- Go map read `m[k]`. -/
def mapLookup (m : List (String × String)) (k : String) : Option String :=
  (m.find? (fun p => p.fst == k)).map Prod.snd

/-- The `SELECT short_url FROM short_urls WHERE original_url=$1` query of
`SaveURL`; under the table's `UNIQUE (original_url)` constraint at most one
row matches. -/
def findByOriginal (rows : List Row) (originalURL : String) : Option Row :=
  rows.find? (fun r => r.originalURL == originalURL)

/-- The error `storage.ErrAlreadyExists`, and a generic statement error
(for example a `UNIQUE (short_url)` violation on insert). -/
inductive SaveErr
  | alreadyExists
  | dbError
deriving DecidableEq, Repr

def rowOfEvent (ev : URLData) : Row :=
  { shortURL := ev.shortURL, originalURL := ev.originalURL,
    userID := ev.userUUID, isDeleted := ev.deletedFlag }

/-- The `INSERT INTO short_urls ... ON CONFLICT (original_url) DO UPDATE SET
short_url = short_urls.short_url` statement: on an `original_url` conflict the
update assigns the row its own short code, leaving the table unchanged; a
`short_url` conflict violates the other `UNIQUE` constraint and the statement
errors; otherwise the row is appended. -/
def dbInsert (rows : List Row) (ev : URLData) : Option (List Row) :=
  if rows.any (fun r => r.originalURL == ev.originalURL) then
    some rows
  else if rows.any (fun r => r.shortURL == ev.shortURL) then
    none
  else
    some (rows ++ [rowOfEvent ev])

/-- `storage.SaveURL`. Relational branch: the `SELECT` scans the existing
short code into the global `ExistingShortURL` when a row with the same
`original_url` exists (on `ErrNoRows` the `Scan` leaves the global
unchanged — the code's `errors.Is(err, pgx.ErrNoRows)` test never matches the
`database/sql` error, so execution falls through); if the global is non-empty
the function returns it with `ErrAlreadyExists`, otherwise it runs the
insert. File branch: update `URLStore` and append the event to the log.
Memory branch: update `URLStore`. Returns (new state, returned string,
returned error). -/
def SaveURL (s : StorageState) (ev : URLData) :
    StorageState × String × Option SaveErr :=
  match s.config with
  | .database =>
    let g :=
      match findByOriginal s.dbRows ev.originalURL with
      | some r => r.shortURL
      | none => s.existingShortURL
    let s₁ := { s with existingShortURL := g }
    if g == ("") then
      match dbInsert s₁.dbRows ev with
      | some rows₂ => ({ s₁ with dbRows := rows₂ }, (""), none)
      | none => (s₁, (""), some .dbError)
    else
      (s₁, g, some .alreadyExists)
  | .fileStore =>
    ({ s with urlStore := mapUpdate s.urlStore ev.shortURL ev.originalURL,
              fileLog := s.fileLog ++ [ev] }, (""), none)
  | .memory =>
    ({ s with urlStore := mapUpdate s.urlStore ev.shortURL ev.originalURL },
     (""), none)

/-- `storage.GetOriginalURL`: relational branch queries
`original_url, is_deleted` by `short_url` (no-rows and query errors both
yield `("", false, false)`); otherwise a locked `URLStore` read that always
reports `deleted = false`. Result is (originalURL, deleted, found). -/
def GetOriginalURL (s : StorageState) (shortID : String) :
    String × Bool × Bool :=
  match s.config with
  | .database =>
    match s.dbRows.find? (fun r => r.shortURL == shortID) with
    | some r => (r.originalURL, r.isDeleted, true)
    | none => ((""), false, false)
  | _ =>
    match mapLookup s.urlStore shortID with
    | some originalURL => (originalURL, false, true)
    | none => ((""), false, false)

/-- `storage.GetURLsByUser`: with a database, all rows with the matching
`user_id` (no `is_deleted` filter), each rendered as
`FlagBaseURL + "/" + short_url` paired with `original_url`;
without a database it returns `nil, nil`, i.e. the empty listing. -/
def GetURLsByUser (s : StorageState) (userID : String) (baseURL : String) :
    List (String × String) :=
  match s.config with
  | .database =>
    (s.dbRows.filter (fun r => r.userID == userID)).map
      (fun r => (baseURL ++ ("/") ++ r.shortURL, r.originalURL))
  | _ => []

/-- Dereferencing the nil `DB` handle: `DB.Exec` on a nil `*sql.DB` panics. -/
inductive StoreFault
  | nilDB
deriving DecidableEq, Repr

/-- The row transformer of the `UPDATE short_urls SET is_deleted = TRUE
WHERE short_url = $1 AND user_id = $2` statement. -/
def markRow (urlID userID : String) (r : Row) : Row :=
  if r.shortURL == urlID && r.userID == userID then
    { r with isDeleted := true }
  else r

/-- `storage.BatchUpdateDeleteFlag`: runs the conditional `UPDATE`
unconditionally on the global `DB` handle, so when no database is configured
it dereferences nil and panics (`StoreFault.nilDB`). -/
def BatchUpdateDeleteFlag (s : StorageState) (urlID userID : String) :
    Except StoreFault StorageState :=
  match s.config with
  | .database =>
    .ok { s with dbRows := s.dbRows.map (markRow urlID userID) }
  | _ => .error .nilDB

/-! ### Identifier generator (`handlers.generateShortID`) -/

/-- One sextet of the unpadded URL-safe base64 alphabet
(`base64.RawURLEncoding`): `A-Z`, `a-z`, `0-9`, `-`, `_`. -/
def b64UrlChar (n : Nat) : Char :=
  if n < 26 then Char.ofNat (65 + n)
  else if n < 52 then Char.ofNat (97 + (n - 26))
  else if n < 62 then Char.ofNat (48 + (n - 52))
  else if n == 62 then Char.ofNat 45
  else Char.ofNat 95

/-- Base64 of one 3-byte group: four sextets, big-endian bit order. -/
def encode3 (b₀ b₁ b₂ : Nat) : List Char :=
  [b64UrlChar (b₀ / 4),
   b64UrlChar (b₀ % 4 * 16 + b₁ / 16),
   b64UrlChar (b₁ % 16 * 4 + b₂ / 64),
   b64UrlChar (b₂ % 64)]

/-- `base64.RawURLEncoding.EncodeToString` on exactly 6 bytes: two 3-byte
groups, no padding. -/
def rawURLEncode6 (b₀ b₁ b₂ b₃ b₄ b₅ : Nat) : String :=
  String.mk (encode3 b₀ b₁ b₂ ++ encode3 b₃ b₄ b₅)

/-- `handlers.generateShortID`: reads 6 bytes from `crypto/rand` and
base64url-encodes them. `none` as input models a failing entropy source, on
which the Go code panics (fatal), modelled by propagating `none`. -/
def generateShortID (entropy : Option (Nat × Nat × Nat × Nat × Nat × Nat)) :
    Option String :=
  match entropy with
  | none => none
  | some (b₀, b₁, b₂, b₃, b₄, b₅) => some (rawURLEncode6 b₀ b₁ b₂ b₃ b₄ b₅)

/-- Membership in the unpadded URL-safe base64 alphabet. -/
def isB64UrlChar (c : Char) : Bool :=
  (('A' ≤ c) && (c ≤ 'Z')) || (('a' ≤ c) && (c ≤ 'z')) ||
  (('0' ≤ c) && (c ≤ '9')) || (c == '-') || (c == '_')

/-- Checks the shape the generator promises on success: an 8-character code
drawn from the URL-safe base64 alphabet (false for the panic case). -/
def shortIDShapeOK : Option String → Bool
  | none => false
  | some out => out.length == 8 && out.data.all isB64UrlChar

/-! ### Batch create pipeline (`handlers` package, `batchPost.go`) -/

/-- Mirror of `models.BatchRequest`. -/
structure BatchRequest where
  correlationID : String
  originalURL : String
deriving DecidableEq, Repr

/-- Mirror of `models.BatchResponse`. -/
structure BatchResponse where
  correlationID : String
  shortURL : String
deriving DecidableEq, Repr

/-- The response one `postURL` worker emits for one item: the
`correlationID` is copied from the event, the short URL is whatever the
worker rendered from the `SaveURL` outcome (new code, existing code, or the
empty string on a non-duplicate error). -/
def batchWorkerResponse (item : BatchRequest) (short : String) : BatchResponse :=
  { correlationID := item.correlationID, shortURL := short }

/-- The generator stage tags each input item with its emission position:
`generatorBatchPost` sends the items of the request in order onto one shared
channel, so an execution of the pipeline handles each indexed item exactly
once. -/
def enumFrom : Nat → List BatchRequest → List (Nat × BatchRequest)
  | _, [] => []
  | k, item :: rest => (k, item) :: enumFrom (k + 1) rest

/-- `processBatchPost` (generator, 5 `postURL` workers, fan-in merge, no
cancellation): the merged output is the per-item worker responses in merge
arrival order. `sched` is the arrival order — an execution of the concurrent
pipeline with the `done` channel never fired delivers every emitted item's
response exactly once, so `sched` ranges over the permutations of the
indexed input (every interleaving of the 5 workers yields one such
permutation); `su i` is the short-URL string the worker rendered for item
`i`. -/
def processBatchPost (su : Nat → String) (sched : List (Nat × BatchRequest)) :
    List BatchResponse :=
  sched.map (fun p => batchWorkerResponse p.snd (su p.fst))

/-- Bool test used to count responses carrying a given correlation id. -/
def hasCorrID (c : String) (r : BatchResponse) : Bool :=
  r.correlationID == c

/-! ### Handler boundary (validation before any store interaction) -/

inductive HandlerStatus
  | badRequestEmptyBatch
  | badRequestEmptyURL
  | conflict (existing : String)
  | serverError
  | created
  | accepted
deriving DecidableEq, Repr

/-- `handlers.HandleBatchPost` after JSON decoding: an empty batch is
rejected with 400 before the pipeline runs; otherwise the pipeline runs
against the store. `pipeline` abstracts `processBatchPost`'s store
interaction. -/
def HandleBatchPost (req : List BatchRequest) (s : StorageState)
    (pipeline : StorageState → StorageState × List BatchResponse) :
    HandlerStatus × StorageState :=
  if req.length == 0 then (.badRequestEmptyBatch, s)
  else (.created, (pipeline s).fst)

/-- `handlers.HandleDeleteURLs` after JSON decoding: an empty id list is
rejected with 400 before anything runs; otherwise 202 Accepted is written and
`processDeleteBatch` runs against the store. -/
def HandleDeleteURLs (ids : List String) (s : StorageState)
    (deleteRun : StorageState → StorageState) :
    HandlerStatus × StorageState :=
  if ids.length == 0 then (.badRequestEmptyBatch, s)
  else (.accepted, deleteRun s)

/-- `strings.TrimSpace`: drop leading and trailing whitespace. -/
def trimSpace (s : String) : String :=
  String.mk
    (((s.data.dropWhile Char.isWhitespace).reverse.dropWhile
        Char.isWhitespace).reverse)

/-- `handlers.HandlePost`: trims the body; an empty result is rejected with
400 before any store call; otherwise it builds the event (fresh uuid and
short id, `DeletedFlag` false) and calls `SaveURL`, mapping
`ErrAlreadyExists` to 409 with the existing code (and resetting the shared
`ExistingShortURL` global), other errors to 500, success to 201. -/
def HandlePost (body : String) (shortID uuidVal uid : String)
    (s : StorageState) : HandlerStatus × StorageState :=
  let originalURL := trimSpace body
  if originalURL == ("") then (.badRequestEmptyURL, s)
  else
    let ev : URLData :=
      { uuid := uuidVal, shortURL := shortID, originalURL := originalURL,
        deletedFlag := false, userUUID := uid, correlationID := ("") }
    match SaveURL s ev with
    | (s₂, existing, some .alreadyExists) =>
      (.conflict existing, { s₂ with existingShortURL := ("") })
    | (s₂, _, some .dbError) => (.serverError, s₂)
    | (s₂, _, none) => (.created, s₂)

/-! ### Operation sequences over the store -/

/-- A store operation, for stating invariants over arbitrary histories. -/
inductive StoreOp
  | save (ev : URLData)
  | batchDelete (urlID userID : String)
deriving Repr

/-- Apply one operation. A `BatchUpdateDeleteFlag` fault (nil-DB panic)
aborts before any write, leaving the store unchanged. -/
def applyOp (s : StorageState) (op : StoreOp) : StorageState :=
  match op with
  | .save ev => (SaveURL s ev).fst
  | .batchDelete urlID userID =>
    match BatchUpdateDeleteFlag s urlID userID with
    | .ok s₂ => s₂
    | .error _ => s

def applyOps (s : StorageState) (ops : List StoreOp) : StorageState :=
  ops.foldl applyOp s

/-- The deletion flag the store records for a short code (`none` when no
row matches). -/
def deletedOf (s : StorageState) (shortID : String) : Option Bool :=
  (s.dbRows.find? (fun r => r.shortURL == shortID)).map Row.isDeleted

/-- No live mapping for this original URL exists in the configured backing
store (the premise of the round-trip property). -/
def notMapped (s : StorageState) (originalURL : String) : Bool :=
  match s.config with
  | .database => s.dbRows.all (fun r => !(r.originalURL == originalURL))
  | _ => s.urlStore.all (fun p => !(p.snd == originalURL))

/-! ### Helper lemmas -/

theorem mapLookup_mapUpdate_self (m : List (String × String)) (k v : String) :
    mapLookup (mapUpdate m k v) k = some v := by
  induction m with
  | nil => simp [mapUpdate, mapLookup, List.find?]
  | cons hd tl ih =>
    obtain ⟨k₀, v₀⟩ := hd
    by_cases h : k₀ = k
    · simp [mapUpdate, mapLookup, List.find?, h]
    · have hb : (k₀ == k) = false := beq_false_of_ne h
      simp only [mapUpdate, hb, Bool.false_eq_true, if_false]
      simpa [mapLookup, List.find?, hb] using ih

theorem find?_append_some {α : Type} {l₁ l₂ : List α} {p : α → Bool} {a : α}
    (h : l₁.find? p = some a) : (l₁ ++ l₂).find? p = some a := by
  induction l₁ with
  | nil => simp [List.find?] at h
  | cons hd tl ih =>
    by_cases hp : p hd
    · simp_all [List.find?]
    · simp only [List.find?, Bool.not_eq_true] at h
      simp only [hp, Bool.false_eq_true, if_false] at h
      simpa [List.find?, hp] using ih h

theorem find?_append_none {α : Type} {l₁ : List α} (l₂ : List α) {p : α → Bool}
    (h : l₁.find? p = none) : (l₁ ++ l₂).find? p = l₂.find? p := by
  induction l₁ with
  | nil => simp
  | cons hd tl ih =>
    by_cases hp : p hd
    · simp [List.find?, hp] at h
    · simp only [List.find?, hp, Bool.false_eq_true, if_false] at h
      simpa [List.find?, hp] using ih h

theorem find?_map_of_pres {α : Type} {p : α → Bool} {f : α → α}
    (hf : ∀ a, p (f a) = p a) (l : List α) :
    (l.map f).find? p = (l.find? p).map f := by
  induction l with
  | nil => rfl
  | cons hd tl ih =>
    by_cases hp : p hd
    · simp [List.find?, hf, hp]
    · simp only [Bool.not_eq_true] at hp
      simp [List.find?, hf, hp, ih]

theorem markRow_shortURL (urlID userID : String) (r : Row) :
    (markRow urlID userID r).shortURL = r.shortURL := by
  unfold markRow; split <;> rfl

theorem markRow_userID (urlID userID : String) (r : Row) :
    (markRow urlID userID r).userID = r.userID := by
  unfold markRow; split <;> rfl

theorem markRow_idem (urlID userID : String) (r : Row) :
    markRow urlID userID (markRow urlID userID r) = markRow urlID userID r := by
  unfold markRow
  by_cases h : (r.shortURL == urlID && r.userID == userID) = true
  · simp [h]
  · simp [h]

theorem map_markRow_idem (urlID userID : String) (l : List Row) :
    (l.map (markRow urlID userID)).map (markRow urlID userID) =
      l.map (markRow urlID userID) := by
  induction l with
  | nil => rfl
  | cons hd tl ih => simp [markRow_idem, ih]

theorem SaveURL_config (s : StorageState) (ev : URLData) :
    (SaveURL s ev).fst.config = s.config := by
  unfold SaveURL
  rcases s with ⟨cfg, rows, store, log, g⟩
  cases cfg <;> simp
  split <;> [skip; rfl]
  split <;> rfl

theorem applyOp_config (s : StorageState) (op : StoreOp) :
    (applyOp s op).config = s.config := by
  cases op with
  | save ev => exact SaveURL_config s ev
  | batchDelete urlID userID =>
    unfold applyOp BatchUpdateDeleteFlag
    rcases s with ⟨cfg, rows, store, log, g⟩
    cases cfg <;> rfl

theorem applyOps_config (ops : List StoreOp) (s : StorageState) :
    (applyOps s ops).config = s.config := by
  induction ops generalizing s with
  | nil => rfl
  | cons op rest ih =>
    have : applyOps s (op :: rest) = applyOps (applyOp s op) rest := rfl
    rw [this, ih, applyOp_config]

theorem enumFrom_length (k : Nat) (l : List BatchRequest) :
    (enumFrom k l).length = l.length := by
  induction l generalizing k with
  | nil => rfl
  | cons hd tl ih => simp [enumFrom, ih]

theorem countP_enumFrom (q : BatchRequest → Bool) (k : Nat)
    (l : List BatchRequest) :
    (enumFrom k l).countP (fun p => q p.snd) = l.countP q := by
  induction l generalizing k with
  | nil => rfl
  | cons hd tl ih => simp [enumFrom, List.countP_cons, ih]

theorem countP_beq_one_of_nodup_map (f : BatchRequest → String)
    (l : List BatchRequest) (hl : (l.map f).Nodup) (a : BatchRequest)
    (ha : a ∈ l) : l.countP (fun x => f x == f a) = 1 := by
  induction l with
  | nil => simp at ha
  | cons hd tl ih =>
    simp only [List.map_cons, List.nodup_cons] at hl
    rcases List.mem_cons.mp ha with heq | hmem
    · subst heq
      have hzero : tl.countP (fun x => f x == f a) = 0 := by
        refine List.countP_eq_zero.mpr ?_
        intro b hb hcontra
        exact hl.1 (List.mem_map.mpr ⟨b, hb, eq_of_beq hcontra⟩)
      simp [List.countP_cons, hzero]
    · have hhd : (f hd == f a) = false := by
        refine beq_false_of_ne ?_
        intro hcontra
        exact hl.1 (List.mem_map.mpr ⟨a, hmem, hcontra.symm⟩)
      simp [List.countP_cons, hhd, ih hl.2 hmem]

/-! ### Claim theorems -/

/-- C9: soft delete is implemented only for the relational strategy — when no
database is configured (the package-level `DB` handle is nil),
`BatchUpdateDeleteFlag` dereferences the nil handle in `DB.Exec` and panics
(the `StoreFault.nilDB` branch) instead of performing a no-op or returning an
error. -/
theorem c9_delete_without_db_panics (s : StorageState) (urlID userID : String)
    (h : s.config ≠ .database) :
    BatchUpdateDeleteFlag s urlID userID = .error .nilDB := by
  unfold BatchUpdateDeleteFlag
  rcases s with ⟨cfg, rows, store, log, g⟩
  cases cfg with
  | database => exact absurd rfl h
  | fileStore => rfl
  | memory => rfl

/-- Concrete instance of the nil-DB panic: deleting under the in-memory
strategy faults. -/
theorem c9_delete_without_db_panics_witness :
    BatchUpdateDeleteFlag
      { config := .memory, dbRows := [],
        urlStore := [(("abcd0123"), ("https://example.com"))], fileLog := [],
        existingShortURL := ("") } ("abcd0123") ("user-1") =
      .error .nilDB :=
  c9_delete_without_db_panics _ _ _ (by decide)

/-- C5: `BatchUpdateDeleteFlag(shortCode, B)` for a mapping owned by
`A ≠ B` returns no error and leaves the mapping's deleted flag false: a
silent no-op, because the `UPDATE ... WHERE short_url = $1 AND user_id = $2`
matches no row of that mapping. -/
theorem c5_ownership_isolation (s : StorageState)
    (shortID ownerA ownerB : String) (r : Row)
    (hcfg : s.config = .database)
    (hfind : s.dbRows.find? (fun x => x.shortURL == shortID) = some r)
    (howner : r.userID = ownerA) (hne : ownerB ≠ ownerA)
    (hdel : r.isDeleted = false) :
    ∃ s₂, BatchUpdateDeleteFlag s shortID ownerB = .ok s₂ ∧
      GetOriginalURL s₂ shortID = (r.originalURL, false, true) := by
  rcases s with ⟨cfg, rows, store, log, g⟩
  cases hcfg
  refine ⟨_, rfl, ?_⟩
  have hmap := find?_map_of_pres (p := fun x : Row => x.shortURL == shortID)
      (f := markRow shortID ownerB) (fun x => by simp [markRow_shortURL]) rows
  have hrB : (r.userID == ownerB) = false := by
    rw [howner]; exact beq_false_of_ne (Ne.symm hne)
  have hfix : markRow shortID ownerB r = r := by
    unfold markRow
    rw [hrB, Bool.and_false]
    simp
  simp only [GetOriginalURL]
  rw [hmap, hfind]
  simp [hfix, hdel]

/-- Concrete instance of ownership isolation: a foreign owner's delete leaves
the row live. -/
theorem c5_ownership_isolation_witness :
    ∃ s₂,
      BatchUpdateDeleteFlag
        { config := .database,
          dbRows := [{ shortURL := ("abcd0123"),
                       originalURL := ("https://example.com"),
                       userID := ("user-a"), isDeleted := false }],
          urlStore := [], fileLog := [], existingShortURL := ("") }
        ("abcd0123") ("user-b") = .ok s₂ ∧
      GetOriginalURL s₂ ("abcd0123") = (("https://example.com"), false, true) :=
  c5_ownership_isolation
    { config := .database,
      dbRows := [{ shortURL := ("abcd0123"),
                   originalURL := ("https://example.com"),
                   userID := ("user-a"), isDeleted := false }],
      urlStore := [], fileLog := [], existingShortURL := ("") }
    ("abcd0123") ("user-a") ("user-b")
    { shortURL := ("abcd0123"), originalURL := ("https://example.com"),
      userID := ("user-a"), isDeleted := false }
    rfl (by decide) rfl (by decide) rfl

/-- C2: `GetOriginalURL` returns `found = false` exactly when no record
matches the short code, and on a match returns the stored original URL with
the record's actual tombstone flag: the relational branch reads back
`is_deleted` as stored, and the in-memory/file branch reports `false`, which
is the only deletion state those strategies can hold. -/
theorem c2_resolve_reports_state (s : StorageState) (shortID : String) :
    (s.config = .database →
      (∀ r, s.dbRows.find? (fun x => x.shortURL == shortID) = some r →
        GetOriginalURL s shortID = (r.originalURL, r.isDeleted, true)) ∧
      (s.dbRows.find? (fun x => x.shortURL == shortID) = none →
        GetOriginalURL s shortID = ((""), false, false))) ∧
    (s.config ≠ .database →
      (∀ u, mapLookup s.urlStore shortID = some u →
        GetOriginalURL s shortID = (u, false, true)) ∧
      (mapLookup s.urlStore shortID = none →
        GetOriginalURL s shortID = ((""), false, false))) := by
  rcases s with ⟨cfg, rows, store, log, g⟩
  cases cfg with
  | database =>
    constructor
    · intro _
      constructor
      · intro r hr; simp [GetOriginalURL, hr]
      · intro hn; simp [GetOriginalURL, hn]
    · intro h; exact absurd rfl h
  | fileStore =>
    constructor
    · intro h; exact StoreConfig.noConfusion h
    · intro _
      constructor
      · intro u hu; simp [GetOriginalURL, hu]
      · intro hn; simp [GetOriginalURL, hn]
  | memory =>
    constructor
    · intro h; exact StoreConfig.noConfusion h
    · intro _
      constructor
      · intro u hu; simp [GetOriginalURL, hu]
      · intro hn; simp [GetOriginalURL, hn]

/-- Concrete instance of resolve semantics: a tombstoned relational record is
reported with `deleted = true`, and a missing code with `found = false`. -/
theorem c2_resolve_reports_state_witness :
    GetOriginalURL
      { config := .database,
        dbRows := [{ shortURL := ("abcd0123"),
                     originalURL := ("https://example.com"),
                     userID := ("user-a"), isDeleted := true }],
        urlStore := [], fileLog := [], existingShortURL := ("") }
      ("abcd0123") = (("https://example.com"), true, true) ∧
    GetOriginalURL
      { config := .memory, dbRows := [], urlStore := [], fileLog := [],
        existingShortURL := ("") } ("missing0") = ((""), false, false) :=
  ⟨((c2_resolve_reports_state
      { config := .database,
        dbRows := [{ shortURL := ("abcd0123"),
                     originalURL := ("https://example.com"),
                     userID := ("user-a"), isDeleted := true }],
        urlStore := [], fileLog := [], existingShortURL := ("") }
      ("abcd0123")).1 rfl).1
      { shortURL := ("abcd0123"), originalURL := ("https://example.com"),
        userID := ("user-a"), isDeleted := true } (by decide),
   ((c2_resolve_reports_state
      { config := .memory, dbRows := [], urlStore := [], fileLog := [],
        existingShortURL := ("") } ("missing0")).2 (by decide)).2 (by decide)⟩

/-- C1 counterexample: under the in-memory strategy, inserting a mapping
whose original URL is already stored returns success (`none`), not
`ErrAlreadyExists`, and leaves two records with that original URL — `SaveURL`
deduplicates only in the relational branch. -/
theorem c1_counterexample :
    (SaveURL
      { config := .memory, dbRows := [],
        urlStore := [(("abcd0123"), ("https://example.com"))], fileLog := [],
        existingShortURL := ("") }
      { uuid := ("u2"), shortURL := ("wxyz4567"),
        originalURL := ("https://example.com"), deletedFlag := false,
        userUUID := ("user-1"), correlationID := ("") }).2.2 ≠
        some SaveErr.alreadyExists ∧
    ((SaveURL
      { config := .memory, dbRows := [],
        urlStore := [(("abcd0123"), ("https://example.com"))], fileLog := [],
        existingShortURL := ("") }
      { uuid := ("u2"), shortURL := ("wxyz4567"),
        originalURL := ("https://example.com"), deletedFlag := false,
        userUUID := ("user-1"), correlationID := ("") }).1.urlStore.countP
        (fun p => p.snd == ("https://example.com"))) = 2 := by
  constructor
  · decide
  · decide

/-- C1 (amended): `SaveURL` refuses to duplicate an existing original URL
only under the relational strategy, where it returns the pre-existing
non-empty short code with `ErrAlreadyExists` and leaves the table unchanged;
under the file and in-memory strategies it performs no duplicate check and
unconditionally records the new mapping, returning success with no signal. -/
theorem c1_dedup_relational_only :
    (∀ (s : StorageState) (ev : URLData) (r : Row),
      s.config = .database →
      findByOriginal s.dbRows ev.originalURL = some r →
      r.shortURL ≠ ("") →
      SaveURL s ev =
        ({ s with existingShortURL := r.shortURL }, r.shortURL,
          some SaveErr.alreadyExists)) ∧
    (∀ (s : StorageState) (ev : URLData),
      s.config = .memory →
      SaveURL s ev =
        ({ s with urlStore := mapUpdate s.urlStore ev.shortURL ev.originalURL },
          (""), none)) ∧
    (∀ (s : StorageState) (ev : URLData),
      s.config = .fileStore →
      SaveURL s ev =
        ({ s with
            urlStore := mapUpdate s.urlStore ev.shortURL ev.originalURL,
            fileLog := s.fileLog ++ [ev] },
          (""), none)) := by
  refine ⟨?_, ?_, ?_⟩
  · intro s ev r hcfg hfind hne
    rcases s with ⟨cfg, rows, store, log, g⟩
    cases hcfg
    have hbeq : (r.shortURL == ("")) = false := beq_false_of_ne hne
    simp only [SaveURL, findByOriginal] at *
    rw [hfind, hbeq]
    simp
  · intro s ev hcfg
    rcases s with ⟨cfg, rows, store, log, g⟩
    cases hcfg
    rfl
  · intro s ev hcfg
    rcases s with ⟨cfg, rows, store, log, g⟩
    cases hcfg
    rfl

/-- Concrete instance of the amended dedup claim, on the relational
strategy. -/
theorem c1_dedup_relational_only_witness :
    SaveURL
      { config := .database,
        dbRows := [{ shortURL := ("abcd0123"),
                     originalURL := ("https://example.com"),
                     userID := ("user-a"), isDeleted := false }],
        urlStore := [], fileLog := [], existingShortURL := ("") }
      { uuid := ("u2"), shortURL := ("wxyz4567"),
        originalURL := ("https://example.com"), deletedFlag := false,
        userUUID := ("user-1"), correlationID := ("") } =
      ({ config := .database,
         dbRows := [{ shortURL := ("abcd0123"),
                      originalURL := ("https://example.com"),
                      userID := ("user-a"), isDeleted := false }],
         urlStore := [], fileLog := [], existingShortURL := ("abcd0123") },
        ("abcd0123"), some SaveErr.alreadyExists) :=
  c1_dedup_relational_only.1
    { config := .database,
      dbRows := [{ shortURL := ("abcd0123"),
                   originalURL := ("https://example.com"),
                   userID := ("user-a"), isDeleted := false }],
      urlStore := [], fileLog := [], existingShortURL := ("") }
    { uuid := ("u2"), shortURL := ("wxyz4567"),
      originalURL := ("https://example.com"), deletedFlag := false,
      userUUID := ("user-1"), correlationID := ("") }
    { shortURL := ("abcd0123"), originalURL := ("https://example.com"),
      userID := ("user-a"), isDeleted := false }
    rfl (by decide) (by decide)

/-- C7: an empty input is rejected with a validation error before any store
interaction and the store is unchanged: an empty batch list in
`HandleBatchPost`, an empty id list in `HandleDeleteURLs` (each for every
possible store interaction `pipeline`/`deleteRun`), and a
whitespace-only body in `HandlePost`. -/
theorem c7_empty_input_rejected :
    (∀ (s : StorageState)
        (pipeline : StorageState → StorageState × List BatchResponse),
      HandleBatchPost [] s pipeline = (.badRequestEmptyBatch, s)) ∧
    (∀ (s : StorageState) (deleteRun : StorageState → StorageState),
      HandleDeleteURLs [] s deleteRun = (.badRequestEmptyBatch, s)) ∧
    (∀ (body shortID uuidVal uid : String) (s : StorageState),
      trimSpace body = ("") →
      HandlePost body shortID uuidVal uid s = (.badRequestEmptyURL, s)) := by
  refine ⟨fun s pipeline => rfl, fun s deleteRun => rfl, ?_⟩
  intro body shortID uuidVal uid s htrim
  simp [HandlePost, htrim]

/-- Concrete instance of the empty-input rejections. -/
theorem c7_empty_input_rejected_witness :
    HandleBatchPost []
      { config := .memory, dbRows := [], urlStore := [], fileLog := [],
        existingShortURL := ("") } (fun s => (s, [])) =
      (.badRequestEmptyBatch,
        { config := .memory, dbRows := [], urlStore := [], fileLog := [],
          existingShortURL := ("") }) ∧
    HandleDeleteURLs []
      { config := .memory, dbRows := [], urlStore := [], fileLog := [],
        existingShortURL := ("") } (fun s => s) =
      (.badRequestEmptyBatch,
        { config := .memory, dbRows := [], urlStore := [], fileLog := [],
          existingShortURL := ("") }) ∧
    HandlePost ("   ") ("wxyz4567") ("u1") ("user-1")
      { config := .memory, dbRows := [], urlStore := [], fileLog := [],
        existingShortURL := ("") } =
      (.badRequestEmptyURL,
        { config := .memory, dbRows := [], urlStore := [], fileLog := [],
          existingShortURL := ("") }) :=
  ⟨c7_empty_input_rejected.1 _ _, c7_empty_input_rejected.2.1 _ _,
   c7_empty_input_rejected.2.2 ("   ") ("wxyz4567") ("u1") ("user-1") _
     (by decide)⟩

/-- C10: without the relational strategy, `GetURLsByUser` returns the empty
listing with no error no matter how many mappings the owner has saved (the
in-memory and file strategies keep no ownership index); with it, the listing
contains every row with the matching `user_id`, tombstoned rows included. -/
theorem c10_user_listing :
    (∀ (s : StorageState) (uid baseURL : String) (evs : List URLData),
      s.config ≠ .database →
      GetURLsByUser (applyOps s (evs.map StoreOp.save)) uid baseURL = []) ∧
    (∀ (s : StorageState) (uid baseURL : String) (r : Row),
      s.config = .database → r ∈ s.dbRows → r.userID = uid →
      (baseURL ++ ("/") ++ r.shortURL, r.originalURL) ∈
        GetURLsByUser s uid baseURL) := by
  constructor
  · intro s uid baseURL evs h
    have hc := applyOps_config (evs.map StoreOp.save) s
    revert hc
    rcases applyOps s (evs.map StoreOp.save) with ⟨cfg, rows, store, log, g⟩
    intro hc
    cases cfg with
    | database => exact absurd hc.symm h
    | fileStore => rfl
    | memory => rfl
  · intro s uid baseURL r hcfg hmem huid
    rcases s with ⟨cfg, rows, store, log, g⟩
    cases hcfg
    simp only [GetOriginalURL, GetURLsByUser]
    exact List.mem_map.mpr
      ⟨r, List.mem_filter.mpr ⟨hmem, by simp [huid]⟩, rfl⟩

/-- Concrete instance of the user listing behavior: an owner's saved mapping
is invisible without a database, and a tombstoned row is listed with one. -/
theorem c10_user_listing_witness :
    GetURLsByUser
      (applyOps
        { config := .memory, dbRows := [], urlStore := [], fileLog := [],
          existingShortURL := ("") }
        ([{ uuid := ("u1"), shortURL := ("abcd0123"),
            originalURL := ("https://example.com"), deletedFlag := false,
            userUUID := ("user-1"), correlationID := ("") }].map StoreOp.save))
      ("user-1") ("http://sh.rt") = [] ∧
    (("http://sh.rt") ++ ("/") ++ ("abcd0123"), ("https://example.com")) ∈
      GetURLsByUser
        { config := .database,
          dbRows := [{ shortURL := ("abcd0123"),
                       originalURL := ("https://example.com"),
                       userID := ("user-1"), isDeleted := true }],
          urlStore := [], fileLog := [], existingShortURL := ("") }
        ("user-1") ("http://sh.rt") :=
  ⟨c10_user_listing.1
    { config := .memory, dbRows := [], urlStore := [], fileLog := [],
      existingShortURL := ("") } ("user-1") ("http://sh.rt")
    [{ uuid := ("u1"), shortURL := ("abcd0123"),
       originalURL := ("https://example.com"), deletedFlag := false,
       userUUID := ("user-1"), correlationID := ("") }] (by decide),
   c10_user_listing.2
    { config := .database,
      dbRows := [{ shortURL := ("abcd0123"),
                   originalURL := ("https://example.com"),
                   userID := ("user-1"), isDeleted := true }],
      urlStore := [], fileLog := [], existingShortURL := ("") }
    ("user-1") ("http://sh.rt")
    { shortURL := ("abcd0123"), originalURL := ("https://example.com"),
      userID := ("user-1"), isDeleted := true }
    rfl (by decide) rfl⟩

theorem b64UrlChar_in_alphabet :
    ∀ n : Fin 64, isB64UrlChar (b64UrlChar n.val) = true := by decide

/-- C8: on success the generator yields a code of exactly 8 characters of
the unpadded URL-safe base64 alphabet from its 6 input bytes; it takes no
other input, and an entropy-source failure is fatal (no code is produced —
the Go code panics). -/
theorem c8_short_id_shape :
    generateShortID none = none ∧
    ∀ b₀ b₁ b₂ b₃ b₄ b₅ : Nat,
      b₀ < 256 → b₁ < 256 → b₂ < 256 → b₃ < 256 → b₄ < 256 → b₅ < 256 →
      shortIDShapeOK (generateShortID (some (b₀, b₁, b₂, b₃, b₄, b₅))) =
        true := by
  refine ⟨rfl, ?_⟩
  intro b₀ b₁ b₂ b₃ b₄ b₅ h₀ h₁ h₂ h₃ h₄ h₅
  have k : ∀ n : Nat, n < 64 → isB64UrlChar (b64UrlChar n) = true :=
    fun n hn => b64UrlChar_in_alphabet ⟨n, hn⟩
  simp only [generateShortID, rawURLEncode6, encode3, shortIDShapeOK,
    List.cons_append, List.nil_append]
  rw [Bool.and_eq_true]
  constructor
  · rfl
  · simp only [List.all_cons, List.all_nil, Bool.and_eq_true, and_true]
    exact ⟨k _ (by omega), k _ (by omega), k _ (by omega), k _ (by omega),
      k _ (by omega), k _ (by omega), k _ (by omega), k _ (by omega)⟩

/-- Concrete instance of the generator shape: six zero bytes encode to an
8-character URL-safe code, and a failed entropy source yields no code. -/
theorem c8_short_id_shape_witness :
    generateShortID none = none ∧
    shortIDShapeOK (generateShortID (some (0, 0, 0, 0, 0, 0))) = true :=
  ⟨c8_short_id_shape.1,
   c8_short_id_shape.2 0 0 0 0 0 0 (by decide) (by decide) (by decide)
     (by decide) (by decide) (by decide)⟩

/-- C6: round-trip — if the original URL is not yet mapped and `SaveURL`
succeeds (returns no error) for a create event (tombstone flag false, as
every create handler builds it), then resolving the event's short code
returns the original URL, `deleted = false` and `found = true`, under every
backing strategy. -/
theorem c6_round_trip (s : StorageState) (ev : URLData) (s₂ : StorageState)
    (ret : String) (hdel : ev.deletedFlag = false)
    (hnm : notMapped s ev.originalURL = true)
    (hsave : SaveURL s ev = (s₂, ret, none)) :
    GetOriginalURL s₂ ev.shortURL = (ev.originalURL, false, true) := by
  rcases s with ⟨cfg, rows, store, log, g⟩
  cases cfg with
  | database =>
    simp only [notMapped, List.all_eq_true, Bool.not_eq_true'] at hnm
    have hfo : rows.find? (fun r => r.originalURL == ev.originalURL) = none :=
      List.find?_eq_none.mpr (fun x hx => by rw [hnm x hx]; exact Bool.false_ne_true)
    have hany : rows.any (fun r => r.originalURL == ev.originalURL) = false := by
      rw [List.any_eq_false]
      intro x hx
      rw [hnm x hx]
      exact Bool.false_ne_true
    simp only [SaveURL, findByOriginal] at hsave
    rw [hfo] at hsave
    by_cases hg : g = ("")
    · subst hg
      simp only [beq_self_eq_true, if_true, dbInsert, hany,
        Bool.false_eq_true, if_false] at hsave
      by_cases hshort : rows.any (fun r => r.shortURL == ev.shortURL) = true
      · rw [if_pos hshort] at hsave
        exact absurd (congrArg (fun t => t.2.2) hsave) (by simp)
      · rw [if_neg hshort] at hsave
        injection hsave with h1 h2
        subst h1
        have hfshort : rows.find? (fun r => r.shortURL == ev.shortURL) = none := by
          rw [List.find?_eq_none]
          intro x hx hpx
          exact hshort (List.any_eq_true.mpr ⟨x, hx, hpx⟩)
        simp only [GetOriginalURL]
        rw [find?_append_none _ hfshort]
        simp [rowOfEvent, hdel]
    · have hg' : (g == ("")) = false := beq_false_of_ne hg
      rw [hg'] at hsave
      simp only [Bool.false_eq_true, if_false] at hsave
      exact absurd (congrArg (fun t => t.2.2) hsave) (by simp)
  | fileStore =>
    simp only [SaveURL] at hsave
    injection hsave with h1 h2
    subst h1
    simp only [GetOriginalURL]
    rw [mapLookup_mapUpdate_self]
  | memory =>
    simp only [SaveURL] at hsave
    injection hsave with h1 h2
    subst h1
    simp only [GetOriginalURL]
    rw [mapLookup_mapUpdate_self]

/-- Concrete instance of the round-trip property on the relational
strategy. -/
theorem c6_round_trip_witness :
    GetOriginalURL
      { config := .database,
        dbRows := [{ shortURL := ("abcd0123"),
                     originalURL := ("https://example.com"),
                     userID := ("user-1"), isDeleted := false }],
        urlStore := [], fileLog := [], existingShortURL := ("") }
      ("abcd0123") = (("https://example.com"), false, true) :=
  c6_round_trip
    { config := .database, dbRows := [], urlStore := [], fileLog := [],
      existingShortURL := ("") }
    { uuid := ("u1"), shortURL := ("abcd0123"),
      originalURL := ("https://example.com"), deletedFlag := false,
      userUUID := ("user-1"), correlationID := ("") }
    { config := .database,
      dbRows := [{ shortURL := ("abcd0123"),
                   originalURL := ("https://example.com"),
                   userID := ("user-1"), isDeleted := false }],
      urlStore := [], fileLog := [], existingShortURL := ("") }
    ("") rfl (by decide) (by decide)

theorem markRow_isDeleted_mono (urlID userID : String) (r : Row)
    (h : r.isDeleted = true) : (markRow urlID userID r).isDeleted = true := by
  unfold markRow
  split
  · rfl
  · exact h

theorem dbInsert_rows (rows : List Row) (ev : URLData) (rows₂ : List Row)
    (h : dbInsert rows ev = some rows₂) :
    rows₂ = rows ∨ rows₂ = rows ++ [rowOfEvent ev] := by
  unfold dbInsert at h
  split at h
  · exact Or.inl (Option.some.inj h).symm
  · split at h
    · exact absurd h (by simp)
    · exact Or.inr (Option.some.inj h).symm

theorem SaveURL_db_dbRows (s : StorageState) (ev : URLData)
    (h : s.config = .database) :
    (SaveURL s ev).fst.dbRows = s.dbRows ∨
    (SaveURL s ev).fst.dbRows = s.dbRows ++ [rowOfEvent ev] := by
  rcases s with ⟨cfg, rows, store, log, g⟩
  cases h
  simp only [SaveURL]
  generalize (match findByOriginal rows ev.originalURL with
    | some r => r.shortURL
    | none => g) = gv
  split
  · split
    · rename_i rows₂ hins
      exact dbInsert_rows rows ev rows₂ hins
    · exact Or.inl rfl
  · exact Or.inl rfl

theorem deletedOf_applyOp_mono (s : StorageState) (op : StoreOp)
    (shortID : String) (hcfg : s.config = .database)
    (hd : deletedOf s shortID = some true) :
    deletedOf (applyOp s op) shortID = some true := by
  obtain ⟨r, hr, hrd⟩ : ∃ r, s.dbRows.find? (fun x => x.shortURL == shortID)
      = some r ∧ r.isDeleted = true := by
    unfold deletedOf at hd
    cases hfind : s.dbRows.find? (fun x => x.shortURL == shortID) with
    | none => rw [hfind] at hd; exact absurd hd (by simp)
    | some r =>
      rw [hfind] at hd
      exact ⟨r, rfl, by simpa using hd⟩
  cases op with
  | save ev =>
    have hrows := SaveURL_db_dbRows s ev hcfg
    unfold applyOp deletedOf
    cases hrows with
    | inl heq => rw [heq, hr, Option.map_some', hrd]
    | inr heq => rw [heq, find?_append_some hr, Option.map_some', hrd]
  | batchDelete urlID userID =>
    rcases s with ⟨cfg, rows, store, log, g⟩
    cases hcfg
    simp only [applyOp, BatchUpdateDeleteFlag, deletedOf]
    have hmap := find?_map_of_pres (p := fun x : Row => x.shortURL == shortID)
        (f := markRow urlID userID) (fun x => by simp [markRow_shortURL]) rows
    rw [hmap, hr, Option.map_some', Option.map_some',
      markRow_isDeleted_mono _ _ _ hrd]

/-- C4: the tombstone is monotone — in the relational store a deleted
mapping stays deleted over every further sequence of `SaveURL` /
`BatchUpdateDeleteFlag` operations; deleting with the owning user makes a
subsequent resolve report `deleted = true`; and repeating the same delete
leaves the state unchanged (a no-op). -/
theorem c4_tombstone_monotone :
    (∀ (s : StorageState) (shortID : String) (ops : List StoreOp),
      s.config = .database → deletedOf s shortID = some true →
      deletedOf (applyOps s ops) shortID = some true) ∧
    (∀ (s : StorageState) (shortID owner : String) (r : Row),
      s.config = .database →
      s.dbRows.find? (fun x => x.shortURL == shortID) = some r →
      r.userID = owner →
      ∃ s₂, BatchUpdateDeleteFlag s shortID owner = .ok s₂ ∧
        GetOriginalURL s₂ shortID = (r.originalURL, true, true) ∧
        BatchUpdateDeleteFlag s₂ shortID owner = .ok s₂) := by
  constructor
  · intro s shortID ops hcfg hd
    induction ops generalizing s with
    | nil => exact hd
    | cons op rest ih =>
      have hstep := deletedOf_applyOp_mono s op shortID hcfg hd
      have hc : (applyOp s op).config = .database := by
        rw [applyOp_config]; exact hcfg
      exact ih (applyOp s op) hc hstep
  · intro s shortID owner r hcfg hfind howner
    rcases s with ⟨cfg, rows, store, log, g⟩
    cases hcfg
    refine ⟨_, rfl, ?_, ?_⟩
    · have hmap := find?_map_of_pres (p := fun x : Row => x.shortURL == shortID)
          (f := markRow shortID owner) (fun x => by simp [markRow_shortURL]) rows
      have hps : (r.shortURL == shortID) = true := by
        have h0 := List.find?_some hfind
        simpa using h0
      have hmark : markRow shortID owner r = { r with isDeleted := true } := by
        unfold markRow
        rw [hps, howner, beq_self_eq_true, Bool.and_true]
        simp
      simp only [GetOriginalURL]
      rw [hmap, hfind, Option.map_some', hmark]
    · simp only [BatchUpdateDeleteFlag, Except.ok.injEq]
      rw [map_markRow_idem]

/-- Concrete instance of tombstone monotonicity: a deleted row survives a
later insert and re-delete, resolve reports the tombstone, and a repeated
delete is a no-op. -/
theorem c4_tombstone_monotone_witness :
    deletedOf
      (applyOps
        { config := .database,
          dbRows := [{ shortURL := ("abcd0123"),
                       originalURL := ("https://example.com"),
                       userID := ("user-1"), isDeleted := true }],
          urlStore := [], fileLog := [], existingShortURL := ("") }
        [StoreOp.save
          { uuid := ("u2"), shortURL := ("wxyz4567"),
            originalURL := ("https://other.example"), deletedFlag := false,
            userUUID := ("user-2"), correlationID := ("") },
         StoreOp.batchDelete ("wxyz4567") ("user-2")])
      ("abcd0123") = some true ∧
    (∃ s₂,
      BatchUpdateDeleteFlag
        { config := .database,
          dbRows := [{ shortURL := ("abcd0123"),
                       originalURL := ("https://example.com"),
                       userID := ("user-1"), isDeleted := false }],
          urlStore := [], fileLog := [], existingShortURL := ("") }
        ("abcd0123") ("user-1") = .ok s₂ ∧
      GetOriginalURL s₂ ("abcd0123") = (("https://example.com"), true, true) ∧
      BatchUpdateDeleteFlag s₂ ("abcd0123") ("user-1") = .ok s₂) :=
  ⟨c4_tombstone_monotone.1
    { config := .database,
      dbRows := [{ shortURL := ("abcd0123"),
                   originalURL := ("https://example.com"),
                   userID := ("user-1"), isDeleted := true }],
      urlStore := [], fileLog := [], existingShortURL := ("") }
    ("abcd0123")
    [StoreOp.save
      { uuid := ("u2"), shortURL := ("wxyz4567"),
        originalURL := ("https://other.example"), deletedFlag := false,
        userUUID := ("user-2"), correlationID := ("") },
     StoreOp.batchDelete ("wxyz4567") ("user-2")]
    rfl (by decide),
   c4_tombstone_monotone.2
    { config := .database,
      dbRows := [{ shortURL := ("abcd0123"),
                   originalURL := ("https://example.com"),
                   userID := ("user-1"), isDeleted := false }],
      urlStore := [], fileLog := [], existingShortURL := ("") }
    ("abcd0123") ("user-1")
    { shortURL := ("abcd0123"), originalURL := ("https://example.com"),
      userID := ("user-1"), isDeleted := false }
    rfl (by decide) rfl⟩

/-- C3: batch completeness — for every input list of batch items with
distinct correlation ids and every worker interleaving of the
`processBatchPost` pipeline (an arrival order `sched` that is a permutation
of the generator's indexed emissions, with `su` the per-item short-URL
renderings), the merged output has exactly as many results as the input has
items, and each input correlation id appears in it exactly once. -/
theorem c3_batch_completeness (req : List BatchRequest) (su : Nat → String)
    (sched : List (Nat × BatchRequest))
    (hperm : sched.Perm (enumFrom 0 req))
    (hnd : (req.map BatchRequest.correlationID).Nodup) :
    (processBatchPost su sched).length = req.length ∧
    ∀ item ∈ req,
      (processBatchPost su sched).countP (hasCorrID item.correlationID) =
        1 := by
  constructor
  · simp only [processBatchPost, List.length_map]
    rw [hperm.length_eq, enumFrom_length]
  · intro item hitem
    calc (processBatchPost su sched).countP (hasCorrID item.correlationID)
        = sched.countP ((hasCorrID item.correlationID) ∘
            (fun p => batchWorkerResponse p.snd (su p.fst))) :=
          List.countP_map _ _ _
      _ = (enumFrom 0 req).countP ((hasCorrID item.correlationID) ∘
            (fun p => batchWorkerResponse p.snd (su p.fst))) :=
          hperm.countP_eq _
      _ = (enumFrom 0 req).countP
            (fun p => p.snd.correlationID == item.correlationID) := rfl
      _ = req.countP (fun x => x.correlationID == item.correlationID) :=
          countP_enumFrom (fun x => x.correlationID == item.correlationID)
            0 req
      _ = 1 :=
          countP_beq_one_of_nodup_map BatchRequest.correlationID req hnd
            item hitem

/-- Concrete instance of batch completeness: two items processed with the
merge delivering them in reversed order still yield one result per
correlation id. -/
theorem c3_batch_completeness_witness :
    (processBatchPost (fun _ => ("http://sh.rt/xxxxxxxx"))
      [(1, { correlationID := ("c-2"), originalURL := ("https://b.example") }),
       (0, { correlationID := ("c-1"), originalURL := ("https://a.example") })]).length =
      ([{ correlationID := ("c-1"), originalURL := ("https://a.example") },
        { correlationID := ("c-2"), originalURL := ("https://b.example") }] :
        List BatchRequest).length ∧
    (processBatchPost (fun _ => ("http://sh.rt/xxxxxxxx"))
      [(1, { correlationID := ("c-2"), originalURL := ("https://b.example") }),
       (0, { correlationID := ("c-1"), originalURL := ("https://a.example") })]).countP
      (hasCorrID ("c-1")) = 1 ∧
    (processBatchPost (fun _ => ("http://sh.rt/xxxxxxxx"))
      [(1, { correlationID := ("c-2"), originalURL := ("https://b.example") }),
       (0, { correlationID := ("c-1"), originalURL := ("https://a.example") })]).countP
      (hasCorrID ("c-2")) = 1 :=
  ⟨(c3_batch_completeness
      [{ correlationID := ("c-1"), originalURL := ("https://a.example") },
       { correlationID := ("c-2"), originalURL := ("https://b.example") }]
      (fun _ => ("http://sh.rt/xxxxxxxx"))
      [(1, { correlationID := ("c-2"), originalURL := ("https://b.example") }),
       (0, { correlationID := ("c-1"), originalURL := ("https://a.example") })]
      (by decide) (by decide)).1,
   (c3_batch_completeness
      [{ correlationID := ("c-1"), originalURL := ("https://a.example") },
       { correlationID := ("c-2"), originalURL := ("https://b.example") }]
      (fun _ => ("http://sh.rt/xxxxxxxx"))
      [(1, { correlationID := ("c-2"), originalURL := ("https://b.example") }),
       (0, { correlationID := ("c-1"), originalURL := ("https://a.example") })]
      (by decide) (by decide)).2
      { correlationID := ("c-1"), originalURL := ("https://a.example") }
      (by decide),
   (c3_batch_completeness
      [{ correlationID := ("c-1"), originalURL := ("https://a.example") },
       { correlationID := ("c-2"), originalURL := ("https://b.example") }]
      (fun _ => ("http://sh.rt/xxxxxxxx"))
      [(1, { correlationID := ("c-2"), originalURL := ("https://b.example") }),
       (0, { correlationID := ("c-1"), originalURL := ("https://a.example") })]
      (by decide) (by decide)).2
      { correlationID := ("c-2"), originalURL := ("https://b.example") }
      (by decide)⟩

end UrlShortener
